import Mathlib

/-!
Verification of the skills-ref frontmatter parsing / metadata validation
service.  The HTTP glue layer is embedded from `src/main.py`; the two core
functions `parse_frontmatter` (parser.py) and `validate_metadata`
(validator.py) are imported by `main.py` but their files are not in the
repository snapshot, so they are modelled from the specification.

Documents are Lean `String`s; the character list `String.data` is the
byte-faithful view used for line splitting and round-trip statements.
Metadata is an association list from string keys to string values (the spec
makes string the always-safe accessor for every scalar value, and every
check in scope reads values as strings).
-/

namespace SkillsRef

/-- A fatal structural defect in the frontmatter grammar (`ParseError` from
errors.py). -/
structure ParseError where
  message : String
deriving DecidableEq, Repr

instance {ε α : Type} [DecidableEq ε] [DecidableEq α] : DecidableEq (Except ε α) := fun x y =>
  match x, y with
  | .error a, .error b =>
    if h : a = b then .isTrue (by rw [h]) else .isFalse (by intro hc; cases hc; exact h rfl)
  | .ok a, .ok b =>
    if h : a = b then .isTrue (by rw [h]) else .isFalse (by intro hc; cases hc; exact h rfl)
  | .error _, .ok _ => .isFalse (by intro hc; cases hc)
  | .ok _, .error _ => .isFalse (by intro hc; cases hc)

/-- Parsed frontmatter metadata: an association list with unique keys,
string values (the safe string accessor of the spec data model §3). -/
abbrev Metadata := List (String × String)

/-- Look a key up in the metadata mapping. -/
def getVal (m : Metadata) (k : String) : Option String :=
  (m.find? (fun p => p.1 == k)).map (fun p => p.2)

/-- Insert a key, overriding any earlier binding of the same key
(last-value-wins, spec §4.1 step 4). -/
def insertKV (m : Metadata) (k v : String) : Metadata :=
  m.filter (fun p => p.1 != k) ++ [(k, v)]

/-- Split a character list into its lines at newline characters.
`splitLines "a\nb".data = ["a".data, "b".data]`; a trailing newline yields a
final empty line; the empty list yields one empty line. -/
def splitLines : List Char → List (List Char)
  | [] => [[]]
  | c :: cs =>
    if c = '\n' then [] :: splitLines cs
    else
      match splitLines cs with
      | [] => [[c]]
      | l :: ls => (c :: l) :: ls

/-- Re-join lines with newline separators; inverse of `splitLines`. -/
def joinLines : List (List Char) → List Char
  | [] => []
  | [l] => l
  | l :: ls => l ++ '\n' :: joinLines ls

/-- Strip leading and trailing whitespace from a character list (the
semantics of Python `str.strip()` and of the trimming prescribed by the
spec). -/
def trimChars (l : List Char) : List Char :=
  ((l.dropWhile Char.isWhitespace).reverse.dropWhile Char.isWhitespace).reverse

/-- Strip leading and trailing whitespace from a string (Python
`str.strip()`). -/
def strTrim (s : String) : String :=
  String.mk (trimChars s.data)

/-- The first line of a document (characters before the first newline). -/
def firstLine (s : String) : List Char :=
  s.data.takeWhile (fun c => c != '\n')

/-- Split a list of lines at the first closing delimiter line `---`:
returns the lines strictly before it and the lines strictly after it, or
`none` when no closing delimiter exists. -/
def splitAtClose : List (List Char) → Option (List (List Char) × List (List Char))
  | [] => none
  | l :: ls =>
    if l = "---".data then some ([], ls)
    else (splitAtClose ls).map (fun p => (l :: p.1, p.2))

/-- Modelled from the spec: one `key: value` line of the metadata block
(parser.py is absent from src/).  Spec §4.1 step 3: the key is a contiguous
non-colon, non-whitespace token, the value is the remainder of the line
after the colon, trimmed; any other shape is malformed (`none`). -/
def parseLine (l : List Char) : Option (String × String) :=
  let key := l.takeWhile (fun c => c != ':' && !c.isWhitespace)
  let rest := l.drop key.length
  if key.isEmpty then none
  else
    match rest with
    | ':' :: v => some (String.mk key, strTrim (String.mk v))
    | _ => none

/-- Modelled from the spec: the metadata block scan of parser.py (absent
from src/).  Spec §4.1 step 3: blank lines inside the block are skipped;
every non-blank line must parse as `key: value`, a violation is a
`ParseError` naming the offending content; duplicates are resolved
last-value-wins (step 4). -/
def parseBlock : List (List Char) → Metadata → Except ParseError Metadata
  | [], acc => .ok acc
  | l :: ls, acc =>
    if l.all Char.isWhitespace then parseBlock ls acc
    else
      match parseLine l with
      | some (k, v) => parseBlock ls (insertKV acc k v)
      | none => .error ⟨"malformed line in frontmatter: " ++ String.mk l⟩

/-- Modelled from the spec: `parse_frontmatter` of parser.py, which is
absent from src/.  Spec §4.1: the document must begin with the delimiter
line `---` as its first line (else ParseError "missing opening delimiter");
a matching closing `---` line must follow (else ParseError "missing closing
delimiter"); the lines strictly between are the metadata block; everything
after the closing delimiter line, including its trailing newline, is the
body verbatim. -/
def parse_frontmatter (document : String) :
    Except ParseError (Metadata × String) :=
  match splitLines document.data with
  | [] => .error ⟨"missing opening delimiter"⟩
  | first :: rest =>
    if first = "---".data then
      match splitAtClose rest with
      | none => .error ⟨"missing closing delimiter"⟩
      | some (blockLines, bodyLines) =>
        match parseBlock blockLines [] with
        | .error e => .error e
        | .ok metadata => .ok (metadata, String.mk (joinLines bodyLines))
    else .error ⟨"missing opening delimiter"⟩

/-- An opaque reference to an on-disk skill directory (spec §3
SkillDirContext); every claim in scope validates inline text with no
directory context. -/
structure SkillDirContext where
  path : String
deriving DecidableEq, Repr

/-- Modelled from the spec: the rule-1 Problems of validator.py (absent
from src/): `name` must be present and a non-empty string after trimming
whitespace. -/
def nameProblems (m : Metadata) : List String :=
  match getVal m "name" with
  | none => ["missing required field: name"]
  | some v => if strTrim v = "" then ["field \x27name\x27 must be a non-empty string"] else []

/-- Modelled from the spec: the rule-2 Problems of validator.py (absent
from src/): `description` must be present and a non-empty string after
trimming whitespace. -/
def descriptionProblems (m : Metadata) : List String :=
  match getVal m "description" with
  | none => ["missing required field: description"]
  | some v => if strTrim v = "" then ["field \x27description\x27 must be a non-empty string"] else []

/-- Modelled from the spec: `validate_metadata` of validator.py, which is
absent from src/.  Spec §4.2: rules run in order (name, description, then
context-dependent checks), every Problem is collected, nothing
short-circuits; when the context is absent the context-dependent checks
are skipped entirely.  The exact context-dependent checks are an
unspecified extension point (spec §9), so they are abstracted as the
argument `dirChecks`; every claim in scope validates with no context,
where they do not run. -/
def validate_metadata (dirChecks : SkillDirContext → Metadata → List String)
    (metadata : Metadata) (skill_dir : Option SkillDirContext) : List String :=
  nameProblems metadata ++ descriptionProblems metadata ++
    (match skill_dir with
     | none => []
     | some ctx => dirChecks ctx metadata)

/-! ## The HTTP glue layer, embedded from src/main.py

Handlers are functions from the request content to `Except HTTPError
response`; raising `HTTPException(status_code, detail)` is the error
case. -/

/-- `HTTPException(status_code, detail)` raised by a handler in main.py. -/
structure HTTPError where
  status : Nat
  detail : String
deriving DecidableEq, Repr

/-- Response model of `/validate/text` (main.py `ValidationResponse`). -/
structure ValidationResponse where
  valid : Bool
  problems : Option (List String)
deriving DecidableEq, Repr

/-- Response model of `/properties/text` (main.py `PropertiesResponse`). -/
structure PropertiesResponse where
  name : String
  description : String
deriving DecidableEq, Repr

/-- Response model of `/prompt/text` (main.py `PromptResponse`). -/
structure PromptResponse where
  prompt : String
deriving DecidableEq, Repr

/-- The 413 detail string produced by every text endpoint in main.py for
oversized content. -/
def sizeDetail (n : Nat) : String :=
  "Content size " ++ toString n ++ " bytes exceeds 1MB limit"

/-- Handler of `POST /validate/text` (main.py lines 58-107).  Oversized
content is a 413; a ParseError becomes a successful response with
`valid := false` and the error message as the single problem; otherwise
the metadata is validated with `skill_dir = None` and `valid` is whether
no problems were found. -/
def validate_skill_text (dirChecks : SkillDirContext → Metadata → List String)
    (content : String) : Except HTTPError ValidationResponse :=
  let content_size := content.utf8ByteSize
  if content_size > 1000000 then
    .error ⟨413, sizeDetail content_size⟩
  else
    match parse_frontmatter content with
    | .error e => .ok ⟨false, some [e.message]⟩
    | .ok (metadata, _) =>
      let problems := validate_metadata dirChecks metadata none
      .ok ⟨problems.length == 0, if problems.isEmpty then none else some problems⟩

/-- Handler of `POST /properties/text` (main.py lines 109-177).  In the
model every metadata value is a string, so the source guard
`not isinstance(name, str) or not name.strip()` reduces to the
empty-after-trim test. -/
def get_properties_from_text (content : String) :
    Except HTTPError PropertiesResponse :=
  let content_size := content.utf8ByteSize
  if content_size > 1000000 then
    .error ⟨413, sizeDetail content_size⟩
  else
    match parse_frontmatter content with
    | .error e => .error ⟨400, e.message⟩
    | .ok (metadata, _) =>
      match getVal metadata "name" with
      | none => .error ⟨400, "Missing required field in frontmatter: name"⟩
      | some name =>
        match getVal metadata "description" with
        | none => .error ⟨400, "Missing required field in frontmatter: description"⟩
        | some description =>
          if strTrim name = "" then
            .error ⟨400, "Field \x27name\x27 must be a non-empty string"⟩
          else if strTrim description = "" then
            .error ⟨400, "Field \x27description\x27 must be a non-empty string"⟩
          else .ok ⟨strTrim name, strTrim description⟩

/-- Python `html.escape` with quoting, as used by main.py: each character
is replaced independently. -/
def escChar (c : Char) : List Char :=
  if c = '&' then "&amp;".data
  else if c = '<' then "&lt;".data
  else if c = '>' then "&gt;".data
  else if c = '"' then "&quot;".data
  else if c.toNat = 39 then "&#x27;".data
  else [c]

/-- Python `html.escape` on a string. -/
def htmlEscape (s : String) : String :=
  String.mk (s.data.map escChar).flatten

/-- The XML prompt assembled by `generate_prompt_text` for a skill with
the given (already stripped, already escaped inputs are handled by the
caller) name and description. -/
def promptXml (name description : String) : String :=
  String.intercalate "\n"
    ["<available_skills>", "<skill>", "<name>", htmlEscape (strTrim name),
     "</name>", "<description>", htmlEscape (strTrim description),
     "</description>", "<location>", "memory", "</location>", "</skill>",
     "</available_skills>"]

/-- Handler of `POST /prompt/text` (main.py lines 179-248).  Only presence
of `name` and `description` is checked; both are stripped, HTML-escaped
and spliced into the XML skeleton. -/
def generate_prompt_text (content : String) :
    Except HTTPError PromptResponse :=
  let content_size := content.utf8ByteSize
  if content_size > 1000000 then
    .error ⟨413, sizeDetail content_size⟩
  else
    match parse_frontmatter content with
    | .error e => .error ⟨400, e.message⟩
    | .ok (metadata, _) =>
      match getVal metadata "name" with
      | none => .error ⟨400, "Missing required field in frontmatter: name"⟩
      | some name =>
        match getVal metadata "description" with
        | none => .error ⟨400, "Missing required field in frontmatter: description"⟩
        | some description =>
          .ok ⟨promptXml name description⟩

/-! ## Helper lemmas -/

theorem splitLines_ne_nil (cs : List Char) : splitLines cs ≠ [] := by
  induction cs with
  | nil => simp [splitLines]
  | cons c cs ih =>
    simp only [splitLines]
    split
    · simp
    · cases h : splitLines cs with
      | nil => simp
      | cons l ls => simp

theorem splitLines_head (cs : List Char) :
    ∃ ls, splitLines cs = (cs.takeWhile (fun c => c != '\n')) :: ls := by
  induction cs with
  | nil => exact ⟨[], rfl⟩
  | cons c cs ih =>
    by_cases h : c = '\n'
    · subst h
      refine ⟨splitLines cs, ?_⟩
      simp [splitLines, List.takeWhile_cons]
    · obtain ⟨ls, hls⟩ := ih
      refine ⟨ls, ?_⟩
      simp only [splitLines, if_neg h, hls, List.takeWhile_cons]
      have hb : (c != '\n') = true := by simpa using h
      simp [hb]

theorem joinLines_cons_cons (l a : List Char) (as : List (List Char)) :
    joinLines (l :: a :: as) = l ++ '\n' :: joinLines (a :: as) := rfl

theorem splitLines_newline (cs : List Char) :
    splitLines ('\n' :: cs) = [] :: splitLines cs := by
  simp [splitLines]

theorem splitLines_cons_of (c : Char) (cs l : List Char) (ls : List (List Char))
    (h : c ≠ '\n') (heq : splitLines cs = l :: ls) :
    splitLines (c :: cs) = (c :: l) :: ls := by
  simp [splitLines, h, heq]

theorem joinLines_splitLines (cs : List Char) : joinLines (splitLines cs) = cs := by
  induction cs with
  | nil => rfl
  | cons c cs ih =>
    obtain ⟨l, ls, hls⟩ : ∃ l ls, splitLines cs = l :: ls := by
      cases h' : splitLines cs with
      | nil => exact absurd h' (splitLines_ne_nil cs)
      | cons l ls => exact ⟨l, ls, rfl⟩
    rw [hls] at ih
    by_cases h : c = '\n'
    · subst h
      rw [splitLines_newline, hls, joinLines_cons_cons, ih]
      rfl
    · rw [splitLines_cons_of c cs l ls h hls]
      cases ls with
      | nil =>
        simp only [joinLines] at ih ⊢
        rw [ih]
      | cons a as =>
        rw [joinLines_cons_cons, List.cons_append, ← joinLines_cons_cons, ih]

theorem splitAtClose_eq (ls b r : List (List Char))
    (h : splitAtClose ls = some (b, r)) : ls = b ++ "---".data :: r := by
  induction ls generalizing b r with
  | nil => simp [splitAtClose] at h
  | cons l ls ih =>
    simp only [splitAtClose] at h
    split at h
    · rename_i hdelim
      obtain ⟨hb, hr⟩ : b = [] ∧ r = ls := by
        constructor <;> · injection h with h'; injection h' with h1 h2; simp [h1.symm, h2.symm]
      subst hb; subst hr
      simp [hdelim]
    · obtain ⟨p, hp, hfp⟩ := Option.map_eq_some'.mp h
      obtain ⟨hb, hr⟩ : b = l :: p.1 ∧ r = p.2 := by
        constructor <;> · injection hfp with h1 h2; simp [h1.symm, h2.symm]
      subst hb; subst hr
      rw [List.cons_append, ← ih p.1 p.2 (by rw [hp])]

theorem joinLines_append_last (xs : List (List Char)) (y : List Char) :
    ∃ q, joinLines (xs ++ [y]) = q ++ y := by
  induction xs with
  | nil => exact ⟨[], rfl⟩
  | cons x xs ih =>
    obtain ⟨q, hq⟩ := ih
    cases xs with
    | nil =>
      refine ⟨x ++ ['\n'], ?_⟩
      simp [joinLines_cons_cons, joinLines]
    | cons a as =>
      refine ⟨x ++ '\n' :: q, ?_⟩
      have h1 : (x :: a :: as) ++ [y] = x :: a :: (as ++ [y]) := by simp
      have h2 : (a :: as) ++ [y] = a :: (as ++ [y]) := by simp
      rw [h2] at hq
      rw [h1, joinLines_cons_cons, hq]
      simp

theorem joinLines_append_mid (xs : List (List Char)) (y b : List Char)
    (bs : List (List Char)) :
    joinLines (xs ++ y :: b :: bs) =
      joinLines (xs ++ [y]) ++ '\n' :: joinLines (b :: bs) := by
  induction xs with
  | nil => simp [joinLines_cons_cons, joinLines]
  | cons x xs ih =>
    cases xs with
    | nil => simp [joinLines_cons_cons, joinLines]
    | cons a as =>
      have h1 : (x :: a :: as) ++ y :: b :: bs = x :: a :: (as ++ y :: b :: bs) := by simp
      have h2 : (x :: a :: as) ++ [y] = x :: a :: (as ++ [y]) := by simp
      have h3 : (a :: as) ++ y :: b :: bs = a :: (as ++ y :: b :: bs) := by simp
      have h4 : (a :: as) ++ [y] = a :: (as ++ [y]) := by simp
      rw [h3, h4] at ih
      rw [h1, h2, joinLines_cons_cons, joinLines_cons_cons, ih]
      simp

theorem getVal_insertKV (m : Metadata) (k v : String) :
    getVal (insertKV m k v) k = some v := by
  induction m with
  | nil => simp [getVal, insertKV, List.find?]
  | cons a m ih =>
    by_cases h : a.1 = k
    · have hfa : (a.1 != k) = false := by simpa using h
      simp only [insertKV, List.filter_cons, hfa] at *
      exact ih
    · have hfa : (a.1 != k) = true := by simpa using h
      have hne : (a.1 == k) = false := by simpa using h
      simp only [insertKV, List.filter_cons, hfa, if_pos, List.cons_append] at *
      simp only [getVal, List.find?, hne] at *
      exact ih

theorem utf8_mk (l : List Char) :
    (String.mk l).utf8ByteSize = (l.map Char.utf8Size).sum := by
  induction l with
  | nil => rfl
  | cons c cs ih =>
    simp only [String.utf8ByteSize, String.utf8ByteSize.go, List.map_cons,
      List.sum_cons] at *
    omega

theorem utf8_replicate (n : Nat) :
    (String.mk (List.replicate n 'a')).utf8ByteSize = n := by
  rw [utf8_mk]
  have h1 : ('a').utf8Size = 1 := rfl
  simp [List.map_replicate, h1]

theorem splitLines_no_newline (cs : List Char) (h : ∀ c ∈ cs, c ≠ '\n') :
    splitLines cs = [cs] := by
  induction cs with
  | nil => rfl
  | cons c cs ih =>
    have hc : c ≠ '\n' := h c (List.mem_cons_self c cs)
    have hrest : splitLines cs = [cs] := ih (fun x hx => h x (List.mem_cons_of_mem c hx))
    simp [splitLines, hc, hrest]

theorem splitLines_line_append (xs ys : List Char) (h : ∀ c ∈ xs, c ≠ '\n') :
    splitLines (xs ++ '\n' :: ys) = xs :: splitLines ys := by
  induction xs with
  | nil => simp [splitLines]
  | cons x xs ih =>
    have hx : x ≠ '\n' := h x (List.mem_cons_self x xs)
    have hrest := ih (fun c hc => h c (List.mem_cons_of_mem x hc))
    simp [splitLines, hx, hrest]

theorem replicate_ne_of_length {α : Type} (n : Nat) (c : α) (l : List α)
    (h : n ≠ l.length) : List.replicate n c ≠ l :=
  fun hc => h (by rw [← hc, List.length_replicate])

theorem parse_no_opening (doc : String) (first : List Char) (ls : List (List Char))
    (hs : splitLines doc.data = first :: ls) (h : first ≠ "---".data) :
    parse_frontmatter doc = .error ⟨"missing opening delimiter"⟩ := by
  unfold parse_frontmatter
  rw [hs]
  simp [h]

theorem parse_empty_block (doc : String) (bodyLines : List (List Char))
    (hs : splitLines doc.data = "---".data :: "---".data :: bodyLines) :
    parse_frontmatter doc = .ok ([], String.mk (joinLines bodyLines)) := by
  unfold parse_frontmatter
  rw [hs]
  simp [splitAtClose, parseBlock]

theorem validate_skill_text_oversize
    (dirChecks : SkillDirContext → Metadata → List String) (content : String)
    (h : content.utf8ByteSize > 1000000) :
    validate_skill_text dirChecks content =
      .error ⟨413, sizeDetail content.utf8ByteSize⟩ := by
  simp only [validate_skill_text]
  rw [if_pos h]

theorem get_properties_from_text_oversize (content : String)
    (h : content.utf8ByteSize > 1000000) :
    get_properties_from_text content =
      .error ⟨413, sizeDetail content.utf8ByteSize⟩ := by
  simp only [get_properties_from_text]
  rw [if_pos h]

theorem generate_prompt_text_oversize (content : String)
    (h : content.utf8ByteSize > 1000000) :
    generate_prompt_text content =
      .error ⟨413, sizeDetail content.utf8ByteSize⟩ := by
  simp only [generate_prompt_text]
  rw [if_pos h]

theorem parse_ok_inversion (doc : String) (m : Metadata) (body : String)
    (h : parse_frontmatter doc = .ok (m, body)) :
    ∃ rest blockLines bodyLines,
      splitLines doc.data = "---".data :: rest ∧
      splitAtClose rest = some (blockLines, bodyLines) ∧
      parseBlock blockLines [] = .ok m ∧
      body = String.mk (joinLines bodyLines) := by
  unfold parse_frontmatter at h
  split at h
  · cases h
  · rename_i first rest heq
    split at h
    · rename_i hf
      split at h
      · cases h
      · rename_i blockLines bodyLines hc
        split at h
        · cases h
        · rename_i metadata hb
          injection h with h'
          injection h' with h1 h2
          refine ⟨rest, blockLines, bodyLines, ?_, hc, ?_, h2.symm⟩
          · rw [← hf]; exact heq
          · rw [hb, h1]
    · cases h

/-! ## The claims -/

/-- C1: `validate({}, None)` returns exactly two Problems, one for each
missing required field (name and description); validation never
short-circuits: the returned list is always the concatenation of the
Problems of every applicable rule, so all Problems are collected, not just
the first failure. -/
theorem c1_empty_metadata_two_problems :
    (∀ dirChecks, validate_metadata dirChecks [] none =
        ["missing required field: name", "missing required field: description"] ∧
      (validate_metadata dirChecks [] none).length = 2) ∧
    (∀ dirChecks m ctx, validate_metadata dirChecks m ctx =
      nameProblems m ++ descriptionProblems m ++
        (match ctx with | none => [] | some c => dirChecks c m)) :=
  ⟨fun _ => ⟨rfl, rfl⟩, fun _ _ _ => rfl⟩

/-- C2: whenever `/validate/text` reports a validation result for parsed
metadata, its `valid` field is true exactly when `validate_metadata`
returned no Problems. -/
theorem c2_valid_iff_no_problems
    (dirChecks : SkillDirContext → Metadata → List String)
    (content body : String) (metadata : Metadata)
    (hsize : content.utf8ByteSize ≤ 1000000)
    (hparse : parse_frontmatter content = .ok (metadata, body)) :
    ∃ resp, validate_skill_text dirChecks content = .ok resp ∧
      (resp.valid = true ↔ validate_metadata dirChecks metadata none = []) := by
  simp only [validate_skill_text, hparse]
  rw [if_neg (by omega)]
  refine ⟨_, rfl, ?_⟩
  simp [List.length_eq_zero]

theorem c2_witness :
    ∃ resp, validate_skill_text (fun _ _ => []) "---\nname: x\ndescription: y\n---\n" =
        .ok resp ∧
      (resp.valid = true ↔
        validate_metadata (fun _ _ => []) [("name", "x"), ("description", "y")] none = []) :=
  c2_valid_iff_no_problems (fun _ _ => []) "---\nname: x\ndescription: y\n---\n" ""
    [("name", "x"), ("description", "y")] (by decide) (by decide)

/-- C3 counterexample: for metadata whose `name` is present but trims to
the empty string, the validator Problem is the lowercase message
beginning "field ...", while the 400 rejection of `/properties/text`
carries the capitalized message beginning "Field ...", which is a
different string than the one the claim quotes. -/
theorem c3_counterexample :
    getVal [("name", ""), ("description", "x")] "name" = some "" ∧
    validate_metadata (fun _ _ => []) [("name", ""), ("description", "x")] none =
      ["field \x27name\x27 must be a non-empty string"] ∧
    get_properties_from_text "---\nname:\ndescription: x\n---\n" =
      .error ⟨400, "Field \x27name\x27 must be a non-empty string"⟩ ∧
    ("Field \x27name\x27 must be a non-empty string" : String) ≠
      "field \x27name\x27 must be a non-empty string" :=
  ⟨by decide, by decide, by decide, by decide⟩

/-- C3 (amended): when `name` is present it must be a non-empty string
after trimming, otherwise the validator reports the lowercase Problem
message about the name field (and reports it only then), and
`/properties/text` rejects such metadata with a 400 error carrying the
capitalized message beginning "Field ...". -/
theorem c3_name_nonempty_rule
    (dirChecks : SkillDirContext → Metadata → List String)
    (m : Metadata) (n : String) (hn : getVal m "name" = some n) :
    (strTrim n = "" →
      validate_metadata dirChecks m none =
        "field \x27name\x27 must be a non-empty string" :: descriptionProblems m) ∧
    (strTrim n ≠ "" →
      "field \x27name\x27 must be a non-empty string" ∉ validate_metadata dirChecks m none) ∧
    (∀ content body d, content.utf8ByteSize ≤ 1000000 →
      parse_frontmatter content = .ok (m, body) →
      getVal m "description" = some d → strTrim n = "" →
      get_properties_from_text content =
        .error ⟨400, "Field \x27name\x27 must be a non-empty string"⟩) := by
  refine ⟨?_, ?_, ?_⟩
  · intro h
    simp only [validate_metadata, nameProblems, hn]
    rw [if_pos h]
    simp
  · intro h
    simp only [validate_metadata, nameProblems, hn]
    rw [if_neg h]
    rcases hd : getVal m "description" with _ | d
    · simp only [descriptionProblems, hd]
      decide
    · by_cases hdt : strTrim d = ""
      · simp only [descriptionProblems, hd]
        rw [if_pos hdt]
        decide
      · simp only [descriptionProblems, hd]
        rw [if_neg hdt]
        decide
  · intro content body d hsize hparse hd h
    simp only [get_properties_from_text, hparse, hn, hd]
    rw [if_neg (by omega), if_pos h]

theorem c3_witness :
    validate_metadata (fun _ _ => []) [("name", ""), ("description", "x")] none =
      "field \x27name\x27 must be a non-empty string" ::
        descriptionProblems [("name", ""), ("description", "x")] ∧
    get_properties_from_text "---\nname:\ndescription: x\n---\n" =
      .error ⟨400, "Field \x27name\x27 must be a non-empty string"⟩ := by
  have h := c3_name_nonempty_rule (fun _ _ => [])
    [("name", ""), ("description", "x")] "" (by decide)
  exact ⟨h.1 (by decide),
    h.2.2 "---\nname:\ndescription: x\n---\n" "" "x" (by decide) (by decide)
      (by decide) (by decide)⟩

/-- C4: every text endpoint rejects content over 1,000,000 UTF-8 bytes
with a 413 error, whatever the content parses to; and the bound is not
enforced by the core: `parse_frontmatter` itself accepts documents over
the limit. -/
theorem c4_size_limit :
    (∀ (dirChecks : SkillDirContext → Metadata → List String) (content : String),
      content.utf8ByteSize > 1000000 →
      validate_skill_text dirChecks content =
        .error ⟨413, sizeDetail content.utf8ByteSize⟩ ∧
      get_properties_from_text content =
        .error ⟨413, sizeDetail content.utf8ByteSize⟩ ∧
      generate_prompt_text content =
        .error ⟨413, sizeDetail content.utf8ByteSize⟩) ∧
    (∃ (doc : String) (r : Metadata × String),
      doc.utf8ByteSize > 1000000 ∧ parse_frontmatter doc = .ok r) := by
  constructor
  · intro dirChecks content h
    exact ⟨validate_skill_text_oversize dirChecks content h,
      get_properties_from_text_oversize content h,
      generate_prompt_text_oversize content h⟩
  · refine ⟨String.mk ("---\n---\n".data ++ List.replicate 1000001 'a'),
      ([], String.mk (List.replicate 1000001 'a')), ?_, ?_⟩
    · rw [utf8_mk, List.map_append, List.sum_append, List.map_replicate]
      have h1 : ('a').utf8Size = 1 := rfl
      have h2 : (("---\n---\n".data.map Char.utf8Size)).sum = 8 := by decide
      rw [h1, h2, List.sum_replicate, smul_eq_mul]
      omega
    · have hnn : ∀ c ∈ List.replicate 1000001 'a', c ≠ '\n' := by
        intro c hc
        rw [List.eq_of_mem_replicate hc]
        decide
      have hdata : (String.mk ("---\n---\n".data ++ List.replicate 1000001 'a')).data
          = "---".data ++ '\n' :: ("---".data ++ '\n' :: List.replicate 1000001 'a') := rfl
      have hs1 := splitLines_line_append "---".data
        ("---".data ++ '\n' :: List.replicate 1000001 'a') (by decide)
      have hs2 := splitLines_line_append "---".data (List.replicate 1000001 'a') (by decide)
      have hs3 := splitLines_no_newline (List.replicate 1000001 'a') hnn
      exact parse_empty_block _ [List.replicate 1000001 'a']
        (by rw [hdata, hs1, hs2, hs3])

theorem c4_witness :
    (String.mk (List.replicate 1000001 'a')).utf8ByteSize > 1000000 ∧
    validate_skill_text (fun _ _ => []) (String.mk (List.replicate 1000001 'a')) =
      .error ⟨413, sizeDetail (String.mk (List.replicate 1000001 'a')).utf8ByteSize⟩ ∧
    get_properties_from_text (String.mk (List.replicate 1000001 'a')) =
      .error ⟨413, sizeDetail (String.mk (List.replicate 1000001 'a')).utf8ByteSize⟩ ∧
    generate_prompt_text (String.mk (List.replicate 1000001 'a')) =
      .error ⟨413, sizeDetail (String.mk (List.replicate 1000001 'a')).utf8ByteSize⟩ := by
  have hsize : (String.mk (List.replicate 1000001 'a')).utf8ByteSize > 1000000 := by
    rw [utf8_replicate]
    omega
  exact ⟨hsize, c4_size_limit.1 (fun _ _ => []) _ hsize⟩

/-- C5: every document whose first line is not the opening delimiter
`---` — the empty document included — fails to parse with the ParseError
"missing opening delimiter", returning no metadata. -/
theorem c5_missing_opening_delimiter :
    (∀ doc : String, firstLine doc ≠ "---".data →
      parse_frontmatter doc = .error ⟨"missing opening delimiter"⟩) ∧
    parse_frontmatter "" = .error ⟨"missing opening delimiter"⟩ := by
  constructor
  · intro doc h
    obtain ⟨ls, hls⟩ := splitLines_head doc.data
    unfold firstLine at h
    exact parse_no_opening doc _ ls hls h
  · decide

theorem c5_witness :
    firstLine "x" ≠ "---".data ∧
    parse_frontmatter "x" = .error ⟨"missing opening delimiter"⟩ :=
  ⟨by decide, c5_missing_opening_delimiter.1 "x" (by decide)⟩

/-- C6: duplicate keys in the metadata block resolve last-value-wins:
parsing `"---\nname: a\nname: b\n---\n"` yields `name = "b"`, and
inserting a key always overrides any earlier binding of that key. -/
theorem c6_last_value_wins :
    (parse_frontmatter "---\nname: a\nname: b\n---\n" = .ok ([("name", "b")], "") ∧
      getVal [("name", "b")] "name" = some "b") ∧
    (∀ (m : Metadata) (k v : String), getVal (insertKV m k v) k = some v) :=
  ⟨⟨by decide, by decide⟩, getVal_insertKV⟩

/-- C7: for every successful parse, the returned Body is byte-identical
to the suffix of the original document that follows the closing delimiter
line together with its own trailing newline, taken verbatim: the document
is the body prefixed by character data ending in the closing delimiter
line. -/
theorem c7_body_round_trip (doc : String) (m : Metadata) (body : String)
    (h : parse_frontmatter doc = .ok (m, body)) :
    ∃ pre, doc.data = pre ++ body.data ∧
      ((∃ q, pre = q ++ "---\n".data) ∨
       (body.data = [] ∧ ∃ q, pre = q ++ "---".data)) := by
  obtain ⟨rest, blockLines, bodyLines, hs, hc, hb, hbody⟩ := parse_ok_inversion doc m body h
  have hdoc : doc.data = joinLines ("---".data :: rest) := by
    rw [← hs, joinLines_splitLines]
  have hrest : rest = blockLines ++ "---".data :: bodyLines :=
    splitAtClose_eq rest blockLines bodyLines hc
  subst hbody
  cases bodyLines with
  | nil =>
    refine ⟨doc.data, ?_, ?_⟩
    · show doc.data = doc.data ++ ([] : List Char)
      rw [List.append_nil]
    · right
      refine ⟨rfl, ?_⟩
      rw [hdoc, hrest]
      have hshape : "---".data :: (blockLines ++ ["---".data]) =
          ("---".data :: blockLines) ++ ["---".data] := by simp
      rw [hshape]
      exact joinLines_append_last _ _
  | cons b bs =>
    have hsplit : "---".data :: rest =
        ("---".data :: blockLines) ++ "---".data :: b :: bs := by
      rw [hrest]
      simp
    rw [hsplit, joinLines_append_mid] at hdoc
    obtain ⟨q, hq⟩ := joinLines_append_last ("---".data :: blockLines) "---".data
    refine ⟨joinLines (("---".data :: blockLines) ++ ["---".data]) ++ ['\n'], ?_, ?_⟩
    · show doc.data = _ ++ joinLines (b :: bs)
      rw [hdoc, List.append_assoc]
      rfl
    · left
      refine ⟨q, ?_⟩
      rw [hq, List.append_assoc]
      congr 1

theorem c7_witness :
    parse_frontmatter "---\n---\nBODY" = .ok ([], "BODY") ∧
    (∃ pre, "---\n---\nBODY".data = pre ++ "BODY".data ∧
      ((∃ q, pre = q ++ "---\n".data) ∨
       ("BODY".data = [] ∧ ∃ q, pre = q ++ "---".data))) :=
  ⟨by decide, c7_body_round_trip "---\n---\nBODY" [] "BODY" (by decide)⟩

/-- C8: `/prompt/text` performs only presence checks: whenever the
content parses and both `name` and `description` are present, the
endpoint succeeds and returns the assembled prompt — even when the values
trim to the empty string, where `/properties/text` would reject with a
400 error. -/
theorem c8_prompt_presence_only (content body n d : String) (m : Metadata)
    (hsize : content.utf8ByteSize ≤ 1000000)
    (hparse : parse_frontmatter content = .ok (m, body))
    (hn : getVal m "name" = some n) (hd : getVal m "description" = some d) :
    generate_prompt_text content = .ok ⟨promptXml n d⟩ ∧
    (strTrim n = "" → get_properties_from_text content =
      .error ⟨400, "Field \x27name\x27 must be a non-empty string"⟩) := by
  constructor
  · simp only [generate_prompt_text, hparse, hn, hd]
    rw [if_neg (by omega)]
  · intro h
    simp only [get_properties_from_text, hparse, hn, hd]
    rw [if_neg (by omega), if_pos h]

theorem c8_witness :
    strTrim "" = "" ∧
    generate_prompt_text "---\nname:\ndescription: x\n---\n" = .ok ⟨promptXml "" "x"⟩ ∧
    get_properties_from_text "---\nname:\ndescription: x\n---\n" =
      .error ⟨400, "Field \x27name\x27 must be a non-empty string"⟩ := by
  have h := c8_prompt_presence_only "---\nname:\ndescription: x\n---\n" "" "" "x"
    [("name", ""), ("description", "x")] (by decide) (by decide) (by decide) (by decide)
  exact ⟨rfl, h.1, h.2 rfl⟩

/-- C9: every successful `/properties/text` response carries the `name`
and `description` metadata values with leading and trailing whitespace
stripped. -/
theorem c9_properties_strip (content body n d : String) (m : Metadata)
    (hsize : content.utf8ByteSize ≤ 1000000)
    (hparse : parse_frontmatter content = .ok (m, body))
    (hn : getVal m "name" = some n) (hd : getVal m "description" = some d)
    (hn2 : strTrim n ≠ "") (hd2 : strTrim d ≠ "") :
    get_properties_from_text content = .ok ⟨strTrim n, strTrim d⟩ := by
  simp only [get_properties_from_text, hparse, hn, hd]
  rw [if_neg (by omega), if_neg hn2, if_neg hd2]

theorem c9_witness :
    get_properties_from_text "---\nname: foo\ndescription: bar\n---\nHello" =
      .ok ⟨strTrim "foo", strTrim "bar"⟩ :=
  c9_properties_strip "---\nname: foo\ndescription: bar\n---\nHello" "Hello"
    "foo" "bar" [("name", "foo"), ("description", "bar")]
    (by decide) (by decide) (by decide) (by decide) (by decide) (by decide)

/-- C10 counterexample: a document over the 1MB limit that also lacks an
opening delimiter raises a ParseError in `parse_frontmatter`, yet
`/validate/text` answers it with a 413 error, not with a success response
listing the parse problem. -/
theorem c10_counterexample :
    parse_frontmatter (String.mk (List.replicate 1000001 'a')) =
      .error ⟨"missing opening delimiter"⟩ ∧
    validate_skill_text (fun _ _ => []) (String.mk (List.replicate 1000001 'a')) =
      .error ⟨413, sizeDetail 1000001⟩ := by
  constructor
  · have hnn : ∀ c ∈ List.replicate 1000001 'a', c ≠ '\n' := by
      intro c hc
      rw [List.eq_of_mem_replicate hc]
      decide
    have hs : splitLines (List.replicate 1000001 'a') = [List.replicate 1000001 'a'] :=
      splitLines_no_newline _ hnn
    have hne : List.replicate 1000001 'a' ≠ "---".data :=
      replicate_ne_of_length 1000001 'a' "---".data (by decide)
    exact parse_no_opening (String.mk (List.replicate 1000001 'a'))
      (List.replicate 1000001 'a') [] hs hne
  · have hgt : (String.mk (List.replicate 1000001 'a')).utf8ByteSize > 1000000 := by
      rw [utf8_replicate]
      omega
    rw [validate_skill_text_oversize (fun _ _ => []) _ hgt, utf8_replicate]

/-- C10 (amended): for every document within the 1,000,000-byte limit on
which `parse_frontmatter` raises a ParseError, `/validate/text` does not
propagate an error: it returns a success response with `valid = false`
and the message of the ParseError as the single problem. -/
theorem c10_parse_error_as_data
    (dirChecks : SkillDirContext → Metadata → List String)
    (content : String) (e : ParseError)
    (hsize : content.utf8ByteSize ≤ 1000000)
    (hparse : parse_frontmatter content = .error e) :
    validate_skill_text dirChecks content = .ok ⟨false, some [e.message]⟩ := by
  simp only [validate_skill_text, hparse]
  rw [if_neg (by omega)]

theorem c10_witness :
    validate_skill_text (fun _ _ => []) "" =
      .ok ⟨false, some ["missing opening delimiter"]⟩ :=
  c10_parse_error_as_data (fun _ _ => []) "" ⟨"missing opening delimiter"⟩
    (by decide) (by decide)

end SkillsRef
